import Mathlib

/-!
Shallow embedding of `src/script.js` (a small space-invaders style game):
the rectangle collision test, the projectile pool, the player, enemies and
the enemy wave.  Positions and sizes are modelled as rationals (every
arithmetic operation the script performs on them — additions, subtractions
and multiplication by 0.5 — is exact on the values involved, so ℚ is a
faithful carrier).  Each frame-stepping method becomes a pure function from
the old state to the new state; the projectile pool is a `List Projectile`
traversed in slot order, exactly as the `for (const p of pool)` loops do.
-/

namespace RetroGame

/-- The `Rectangle` typedef of `script.js`: top-left corner plus size. -/
structure Rect where
  x : ℚ
  y : ℚ
  width : ℚ
  height : ℚ
deriving DecidableEq, Repr

/-- Embeds `Game.checkCollision`: strict axis-aligned bounding-box overlap test. -/
def checkCollision (a b : Rect) : Bool :=
  (a.x < b.x + b.width) && (a.x + a.width > b.x) &&
  (a.y < b.y + b.height) && (a.y + a.height > b.y)

/-- State of one `Projectile` pool slot. -/
structure Projectile where
  width : ℚ
  height : ℚ
  x : ℚ
  y : ℚ
  speed : ℚ
  free : Bool
deriving DecidableEq, Repr

/-- Embeds `new Projectile()`: the constructor fills a fresh, free slot. -/
def Projectile.new : Projectile :=
  { width := 4, height := 20, x := 0, y := 0, speed := 20, free := true }

/-- The rectangle a projectile occupies (the fields collision reads). -/
def Projectile.toRect (p : Projectile) : Rect :=
  { x := p.x, y := p.y, width := p.width, height := p.height }

/-- Embeds `Projectile.reset`: return the slot to the pool. -/
def Projectile.reset (p : Projectile) : Projectile :=
  { p with free := true }

/-- Embeds `Projectile.start(x, y)`: take the slot from the pool, centred on `x`. -/
def Projectile.start (p : Projectile) (x y : ℚ) : Projectile :=
  { p with x := x - p.width * (1/2), y := y, free := false }

/-- Embeds `Projectile.update`: move an active projectile up; expire past the top. -/
def Projectile.update (p : Projectile) : Projectile :=
  if p.free then p
  else
    let moved := { p with y := p.y - p.speed }
    if moved.y < -moved.height then moved.reset else moved

/-- State of the `Player`. -/
structure Player where
  width : ℚ
  height : ℚ
  x : ℚ
  y : ℚ
  speed : ℚ
deriving DecidableEq, Repr

/-- Embeds `new Player(game)`: centred horizontally, resting on the bottom edge. -/
def Player.new (gameWidth gameHeight : ℚ) : Player :=
  { width := 100, height := 100,
    x := gameWidth * (1/2) - 100 * (1/2),
    y := gameHeight - 100,
    speed := 5 }

/-- Embeds `Player.update`: apply held arrow keys, then clamp
`x` into `[-width/2, gameWidth - width/2]` (an `else if` chain). -/
def Player.update (keys : List String) (gameWidth : ℚ) (pl : Player) : Player :=
  let x1 := if keys.contains ("ArrowLeft") then pl.x - pl.speed else pl.x
  let x2 := if keys.contains ("ArrowRight") then x1 + pl.speed else x1
  let x3 :=
    if x2 < -pl.width * (1/2) then -pl.width * (1/2)
    else if x2 > gameWidth - pl.width * (1/2) then gameWidth - pl.width * (1/2)
    else x2
  { pl with x := x3 }

/-- Embeds `Game.getProjectile` as the index of the slot it returns: the linear
scan stops at the first free slot, yielding `none` on an exhausted pool. -/
def firstFreeIdx : List Projectile → Option Nat
  | [] => none
  | p :: rest => if p.free then some 0 else (firstFreeIdx rest).map (· + 1)

/-- Embeds `Player.shoot`, seen from the pool: `getProjectile` hands back a
reference to the first free slot and `start` mutates that slot in place,
so the pool is rebuilt with exactly that slot started. -/
def shootPool (pool : List Projectile) (x y : ℚ) : List Projectile :=
  match pool with
  | [] => []
  | p :: rest => if p.free then p.start x y :: rest else p :: shootPool rest x y

/-- Embeds `Player.shoot()`: fire from the player's centre-x and top-y. -/
def Player.shoot (pl : Player) (pool : List Projectile) : List Projectile :=
  shootPool pool (pl.x + pl.width * (1/2)) pl.y

/-- State of one `Enemy`. -/
structure Enemy where
  width : ℚ
  height : ℚ
  x : ℚ
  y : ℚ
  positionX : ℚ
  positionY : ℚ
  markedForDeletion : Bool
deriving DecidableEq, Repr

/-- The rectangle an enemy occupies (the fields collision reads). -/
def Enemy.toRect (e : Enemy) : Rect :=
  { x := e.x, y := e.y, width := e.width, height := e.height }

/-- The loop guard inside `Enemy.update`: the projectile is in flight and
its rectangle overlaps the enemy's. -/
def Enemy.hits (e : Enemy) (p : Projectile) : Bool :=
  !p.free && checkCollision e.toRect p.toRect

/-- The `for (const projectile of this.game.projectilesPool)` loop of
`Enemy.update`: on each overlap with an active projectile the enemy is
marked for deletion and that projectile is reset (the loop has no early
exit, so it continues through the rest of the pool). -/
def collideLoop : Enemy → List Projectile → Enemy × List Projectile
  | e, [] => (e, [])
  | e, p :: rest =>
    if e.hits p then
      let step := collideLoop { e with markedForDeletion := true } rest
      (step.1, p.reset :: step.2)
    else
      let step := collideLoop e rest
      (step.1, p :: step.2)

/-- Embeds `Enemy.update(x, y)`: place the enemy at the wave origin plus its grid
offset, then run the collision loop over the whole pool. -/
def Enemy.update (e : Enemy) (pool : List Projectile) (x y : ℚ) :
    Enemy × List Projectile :=
  collideLoop { e with x := e.positionX + x, y := e.positionY + y } pool

/-- State of a `Wave`. -/
structure Wave where
  width : ℚ
  height : ℚ
  x : ℚ
  y : ℚ
  speedX : ℚ
  speedY : ℚ
  enemies : List Enemy
deriving Repr

/-- The `for (const enemy of this.enemies)` loop of `Wave.draw`: each enemy
updates against the pool left by its predecessors, then is drawn.  Returns
the updated (and drawn) enemies in order, and the final pool. -/
def enemiesLoop : List Enemy → List Projectile → ℚ → ℚ →
    List Enemy × List Projectile
  | [], pool, _, _ => ([], pool)
  | e :: rest, pool, x, y =>
    let step := Enemy.update e pool x y
    let tail := enemiesLoop rest step.2 x y
    (step.1 :: tail.1, tail.2)

/-- Embeds `Wave.draw`: entry easing, edge bounce, origin motion, the per-enemy
update/draw loop, then the deferred `filter` that prunes marked enemies.
Returns the new wave, the new pool, and the list of enemies as they were
updated and drawn this frame. -/
def Wave.draw (gameWidth enemySize : ℚ) (w : Wave) (pool : List Projectile) :
    Wave × List Projectile × List Enemy :=
  let y1 := if w.y < 0 then w.y + 5 else w.y
  let bounce : Prop := w.x < 0 ∨ w.x > gameWidth - w.width
  let speedX2 := if bounce then w.speedX * (-1) else w.speedX
  let speedY2 := if bounce then enemySize else 0
  let x2 := w.x + speedX2
  let y2 := y1 + speedY2
  let step := enemiesLoop w.enemies pool x2 y2
  ({ w with x := x2, y := y2, speedX := speedX2, speedY := speedY2,
            enemies := step.1.filter (fun e => !e.markedForDeletion) },
   step.2, step.1)

/-- Concrete test fixture: the 600-wide world's 3×3 wave of 60-pixel cells
(180 wide), its origin sitting exactly at `600 - 180 = 420` while moving
right, with no enemies left so the frame step is purely the origin motion. -/
def edgeWave : Wave :=
  { width := 180, height := 180, x := 420, y := 0, speedX := 3, speedY := 0,
    enemies := [] }

/-- Concrete test fixture: a wave at the origin holding the single enemy of
grid cell (0,0). -/
def hitWave : Wave :=
  { width := 180, height := 180, x := 0, y := 0, speedX := 3, speedY := 0,
    enemies := [{ width := 60, height := 60, x := 0, y := 0, positionX := 0,
                  positionY := 0, markedForDeletion := false }] }

/-- Concrete test fixture: a pool holding one active projectile at (10,10),
which overlaps the fixture wave's enemy once the frame's origin motion has
placed that enemy at (3,0). -/
def hitPool : List Projectile :=
  [{ width := 4, height := 20, x := 10, y := 10, speed := 20, free := false }]

end RetroGame

namespace RetroGame

/-- C8 -- `checkCollision` is symmetric: swapping the two rectangles swaps
each strict comparison with its mirror image, leaving the conjunction
unchanged. -/
theorem checkCollision_symm (a b : Rect) :
    checkCollision a b = checkCollision b a := by
  unfold checkCollision
  rw [Bool.eq_iff_iff]
  simp only [Bool.and_eq_true, decide_eq_true_eq, gt_iff_lt]
  tauto

/-- C9 -- rectangles that touch edge-to-edge do not collide: equality on
any one of the four edge pairs falsifies the corresponding strict
comparison of `checkCollision`. -/
theorem checkCollision_touching_false (a b : Rect)
    (h : a.x + a.width = b.x ∨ b.x + b.width = a.x ∨
         a.y + a.height = b.y ∨ b.y + b.height = a.y) :
    checkCollision a b = false := by
  unfold checkCollision
  rcases h with h | h | h | h <;>
    simp only [Bool.and_eq_false_iff, decide_eq_false_iff_not, not_lt, gt_iff_lt] <;>
    [skip; skip; skip; skip] <;>
    first
    | exact Or.inl (Or.inl (Or.inr (by rw [h])))
    | exact Or.inl (Or.inl (Or.inl (by rw [← h])))
    | exact Or.inl (Or.inr (by rw [h]))
    | exact Or.inr (by rw [← h])

/-- C9 witness: two 10×10 squares sharing a vertical edge do not collide. -/
theorem checkCollision_touching_false_witness :
    ((0 : ℚ) + 10 = 10 ∨ (10 : ℚ) + 10 = 0 ∨ (0 : ℚ) + 10 = 0 ∨ (0 : ℚ) + 10 = 0) ∧
      checkCollision ⟨0, 0, 10, 10⟩ ⟨10, 0, 10, 10⟩ = false :=
  ⟨Or.inl (by norm_num),
   checkCollision_touching_false ⟨0, 0, 10, 10⟩ ⟨10, 0, 10, 10⟩ (Or.inl (by norm_num))⟩

/-- C10 -- `reset` flips only the `free` flag to `true`; position, size and
speed are untouched, so a recycled slot keeps its last in-flight values. -/
theorem reset_only_frees (p : Projectile) :
    (p.reset).free = true ∧ (p.reset).x = p.x ∧ (p.reset).y = p.y ∧
      (p.reset).width = p.width ∧ (p.reset).height = p.height ∧
      (p.reset).speed = p.speed :=
  ⟨rfl, rfl, rfl, rfl, rfl, rfl⟩

/-- C7 -- `Projectile.update` is the identity on a free slot; on an active
slot it subtracts the speed from `y` and frees the slot exactly when the
new `y` is strictly below `-height`, changing nothing else. -/
theorem projectile_update_spec (p : Projectile) :
    p.update = if p.free then p
      else { p with y := p.y - p.speed,
                    free := decide (p.y - p.speed < -p.height) } := by
  unfold Projectile.update Projectile.reset
  cases hf : p.free with
  | true => simp
  | false =>
    simp only [Bool.false_eq_true, if_false]
    by_cases hy : p.y - p.speed < -p.height
    · simp [hy]
    · simp [hy]

end RetroGame

namespace RetroGame

/-- One frame of `Player.update` lands `x` inside the clamp interval
whatever the previous `x` was, provided the world width is nonnegative. -/
theorem player_update_x_bounds (keys : List String) (gameWidth : ℚ)
    (hW : 0 ≤ gameWidth) (pl : Player) :
    -(pl.update keys gameWidth).width * (1/2) ≤ (pl.update keys gameWidth).x ∧
      (pl.update keys gameWidth).x ≤
        gameWidth - (pl.update keys gameWidth).width * (1/2) := by
  have key : ∀ z : ℚ,
      -pl.width * (1/2) ≤
          (if z < -pl.width * (1/2) then -pl.width * (1/2)
           else if z > gameWidth - pl.width * (1/2) then gameWidth - pl.width * (1/2)
           else z) ∧
        (if z < -pl.width * (1/2) then -pl.width * (1/2)
         else if z > gameWidth - pl.width * (1/2) then gameWidth - pl.width * (1/2)
         else z) ≤ gameWidth - pl.width * (1/2) := by
    intro z
    split
    · constructor <;> linarith
    · next h1 =>
      split
      · constructor <;> linarith
      · next h2 => constructor <;> linarith [not_lt.mp h1, not_lt.mp h2]
  exact key _

/-- Folding `Player.update` over a sequence of held-key sets preserves the
clamp interval (stated with the starting player generalised). -/
theorem player_foldl_bounds (gameWidth : ℚ) (hW : 0 ≤ gameWidth)
    (inputs : List (List String)) :
    ∀ p : Player,
      -p.width * (1/2) ≤ p.x ∧ p.x ≤ gameWidth - p.width * (1/2) →
      -(inputs.foldl (fun a keys => a.update keys gameWidth) p).width * (1/2) ≤
          (inputs.foldl (fun a keys => a.update keys gameWidth) p).x ∧
        (inputs.foldl (fun a keys => a.update keys gameWidth) p).x ≤
          gameWidth -
            (inputs.foldl (fun a keys => a.update keys gameWidth) p).width * (1/2) := by
  induction inputs with
  | nil => intro p hp; exact hp
  | cons k rest ih =>
    intro p _
    exact ih (p.update k gameWidth) (player_update_x_bounds k gameWidth hW p)

/-- C3 -- starting from the constructed player (which sits inside the
interval), after any sequence of per-frame held-key sets the player's `x`
is still inside `[-width/2, gameWidth - width/2]`; as this holds for every
sequence it holds after every individual call to `update`. -/
theorem player_x_never_escapes (gameWidth gameHeight : ℚ) (hW : 0 ≤ gameWidth)
    (inputs : List (List String)) :
    -(inputs.foldl (fun p keys => p.update keys gameWidth)
          (Player.new gameWidth gameHeight)).width * (1/2) ≤
        (inputs.foldl (fun p keys => p.update keys gameWidth)
          (Player.new gameWidth gameHeight)).x ∧
      (inputs.foldl (fun p keys => p.update keys gameWidth)
          (Player.new gameWidth gameHeight)).x ≤
        gameWidth -
          (inputs.foldl (fun p keys => p.update keys gameWidth)
            (Player.new gameWidth gameHeight)).width * (1/2) := by
  apply player_foldl_bounds gameWidth hW inputs
  constructor
  · show -(100 : ℚ) * (1/2) ≤ gameWidth * (1/2) - 100 * (1/2)
    linarith
  · show gameWidth * (1/2) - 100 * (1/2) ≤ gameWidth - 100 * (1/2)
    linarith

/-- C3 witness: the 600×800 session, holding left then right. -/
theorem player_x_never_escapes_witness :
    (0 : ℚ) ≤ 600 ∧
      (-(List.foldl (fun p keys => p.update keys 600)
            (Player.new 600 800) [["ArrowLeft"], ["ArrowRight"]]).width * (1/2) ≤
          (List.foldl (fun p keys => p.update keys 600)
            (Player.new 600 800) [["ArrowLeft"], ["ArrowRight"]]).x ∧
        (List.foldl (fun p keys => p.update keys 600)
            (Player.new 600 800) [["ArrowLeft"], ["ArrowRight"]]).x ≤
          600 -
            (List.foldl (fun p keys => p.update keys 600)
              (Player.new 600 800) [["ArrowLeft"], ["ArrowRight"]]).width * (1/2)) :=
  ⟨by norm_num, player_x_never_escapes 600 800 (by norm_num) [["ArrowLeft"], ["ArrowRight"]]⟩

/-- Lemma: `shootPool` leaves a pool without free slots untouched. -/
theorem shootPool_no_free (x y : ℚ) :
    ∀ pool : List Projectile, (∀ p ∈ pool, p.free = false) →
      shootPool pool x y = pool := by
  intro pool
  induction pool with
  | nil => intro _; rfl
  | cons p rest ih =>
    intro h
    unfold shootPool
    rw [h p (List.mem_cons_self p rest)]
    simp only [Bool.false_eq_true, if_false]
    rw [ih fun q hq => h q (List.mem_cons_of_mem p hq)]

/-- C4 -- firing with zero free slots: `shoot` returns the pool exactly as
it was, so every slot's flag and position fields are unchanged and no
projectile is activated; the request is dropped without error. -/
theorem shoot_exhausted_pool_noop (pl : Player) (pool : List Projectile)
    (h : ∀ p ∈ pool, p.free = false) :
    pl.shoot pool = pool :=
  shootPool_no_free (pl.x + pl.width * (1/2)) pl.y pool h

/-- C4 witness: a pool of two in-flight projectiles absorbs a shot. -/
theorem shoot_exhausted_pool_noop_witness :
    (∀ p ∈ [({ Projectile.new with x := 7, y := 9, free := false } : Projectile),
            { Projectile.new with x := 3, y := 4, free := false }], p.free = false) ∧
      (Player.new 600 800).shoot
          [{ Projectile.new with x := 7, y := 9, free := false },
           { Projectile.new with x := 3, y := 4, free := false }] =
        [{ Projectile.new with x := 7, y := 9, free := false },
         { Projectile.new with x := 3, y := 4, free := false }] :=
  ⟨by decide, shoot_exhausted_pool_noop (Player.new 600 800) _ (by decide)⟩

/-- Lemma: `shootPool` on a pool whose first free slot has index `i`: slot `i` is
started and every other slot is returned as it was. -/
theorem shootPool_firstFree (x y : ℚ) :
    ∀ (pool : List Projectile) (i : Nat), firstFreeIdx pool = some i →
      (∀ j, j ≠ i → (shootPool pool x y)[j]? = pool[j]?) ∧
      ∃ p, pool[i]? = some p ∧ p.free = true ∧
        (shootPool pool x y)[i]? = some (p.start x y) := by
  intro pool
  induction pool with
  | nil => intro i h; simp [firstFreeIdx] at h
  | cons p rest ih =>
    intro i h
    unfold firstFreeIdx at h
    by_cases hf : p.free
    · rw [if_pos hf] at h
      injection h with h0
      subst h0
      refine ⟨?_, p, by simp, hf, ?_⟩
      · intro j hj
        match j with
        | 0 => exact absurd rfl hj
        | j' + 1 => simp [shootPool, hf]
      · simp [shootPool, hf]
    · rw [if_neg hf] at h
      rcases Option.map_eq_some'.mp h with ⟨i', hi', hii⟩
      subst hii
      obtain ⟨hother, q, hq, hqfree, hstart⟩ := ih i' hi'
      refine ⟨?_, q, ?_, hqfree, ?_⟩
      · intro j hj
        match j with
        | 0 => simp [shootPool, hf]
        | j' + 1 =>
          have : j' ≠ i' := fun hc => hj (by rw [hc])
          simp only [shootPool, hf, Bool.false_eq_true, if_false,
            List.getElem?_cons_succ]
          exact hother j' this
      · simpa using hq
      · simp only [shootPool, hf, Bool.false_eq_true, if_false,
          List.getElem?_cons_succ]
        exact hstart

/-- C6 -- firing with a free slot available: exactly the first free slot in
pool order transitions to active, its left edge at the player's centre-x
minus half the projectile width and its top edge at the player's top-y;
every other slot is unchanged. -/
theorem shoot_starts_first_free (pl : Player) (pool : List Projectile)
    (i : Nat) (h : firstFreeIdx pool = some i) :
    (∀ j, j ≠ i → (pl.shoot pool)[j]? = pool[j]?) ∧
    ∃ p, pool[i]? = some p ∧ p.free = true ∧
      (pl.shoot pool)[i]? = some (p.start (pl.x + pl.width * (1/2)) pl.y) ∧
      (p.start (pl.x + pl.width * (1/2)) pl.y).free = false ∧
      (p.start (pl.x + pl.width * (1/2)) pl.y).x =
        (pl.x + pl.width * (1/2)) - p.width * (1/2) ∧
      (p.start (pl.x + pl.width * (1/2)) pl.y).y = pl.y := by
  obtain ⟨hother, p, hp, hpfree, hstart⟩ :=
    shootPool_firstFree (pl.x + pl.width * (1/2)) pl.y pool i h
  exact ⟨hother, p, hp, hpfree, hstart, rfl, rfl, rfl⟩

/-- C6 witness: a two-slot pool whose second slot is the first free one. -/
theorem shoot_starts_first_free_witness :
    firstFreeIdx [({ Projectile.new with x := 7, y := 9, free := false } : Projectile),
        Projectile.new] = some 1 ∧
      ((∀ j, j ≠ 1 →
          ((Player.new 600 800).shoot
              [{ Projectile.new with x := 7, y := 9, free := false },
               Projectile.new])[j]? =
            [({ Projectile.new with x := 7, y := 9, free := false } : Projectile),
              Projectile.new][j]?) ∧
        ∃ p, [({ Projectile.new with x := 7, y := 9, free := false } : Projectile),
            Projectile.new][1]? = some p ∧ p.free = true ∧
          ((Player.new 600 800).shoot
              [{ Projectile.new with x := 7, y := 9, free := false },
               Projectile.new])[1]? =
            some (p.start ((Player.new 600 800).x + (Player.new 600 800).width * (1/2))
              (Player.new 600 800).y) ∧
          (p.start ((Player.new 600 800).x + (Player.new 600 800).width * (1/2))
              (Player.new 600 800).y).free = false ∧
          (p.start ((Player.new 600 800).x + (Player.new 600 800).width * (1/2))
              (Player.new 600 800).y).x =
            ((Player.new 600 800).x + (Player.new 600 800).width * (1/2)) -
              p.width * (1/2) ∧
          (p.start ((Player.new 600 800).x + (Player.new 600 800).width * (1/2))
              (Player.new 600 800).y).y = (Player.new 600 800).y) :=
  ⟨by decide, shoot_starts_first_free (Player.new 600 800) _ 1 (by decide)⟩

end RetroGame

namespace RetroGame

/-- Marking an enemy for deletion does not change the rectangle the
collision loop tests against. -/
theorem hits_mark (e : Enemy) (p : Projectile) :
    Enemy.hits { e with markedForDeletion := true } p = e.hits p := rfl

/-- The collision loop resets exactly the projectiles the enemy overlaps:
slot `j` of the output is slot `j` of the input, reset when it was an
active overlapping projectile. -/
theorem collideLoop_pool : ∀ (ps : List Projectile) (e : Enemy),
    (collideLoop e ps).2 = ps.map fun p => if e.hits p then p.reset else p
  | [], _ => rfl
  | p :: rest, e => by
    unfold collideLoop
    by_cases h : e.hits p
    · simp only [h, if_true, List.map_cons]
      rw [collideLoop_pool rest { e with markedForDeletion := true }]
      simp only [hits_mark]
    · simp only [h, Bool.false_eq_true, if_false, List.map_cons]
      rw [collideLoop_pool rest e]

/-- The collision loop marks the enemy exactly when some pool slot is an
active overlapping projectile, and changes nothing else about it. -/
theorem collideLoop_enemy : ∀ (ps : List Projectile) (e : Enemy),
    (collideLoop e ps).1 =
      { e with markedForDeletion := e.markedForDeletion || ps.any e.hits }
  | [], e => by simp [collideLoop]
  | p :: rest, e => by
    unfold collideLoop
    by_cases h : e.hits p
    · simp only [h, if_true]
      rw [collideLoop_enemy rest { e with markedForDeletion := true }]
      simp [h]
    · simp only [h, Bool.false_eq_true, if_false]
      rw [collideLoop_enemy rest e]
      simp [h]

/-- C1 amended -- one call to `Enemy.update` consumes EVERY active
projectile whose rectangle overlaps the repositioned enemy (the loop has no
early exit), not only the first one in pool slot order; the enemy ends up
marked for deletion exactly when it was already marked or at least one
active projectile overlaps it. -/
theorem enemy_update_consumes_every_overlap (e : Enemy)
    (pool : List Projectile) (x y : ℚ) :
    (e.update pool x y).2 =
      pool.map (fun p =>
        if Enemy.hits { e with x := e.positionX + x, y := e.positionY + y } p
        then p.reset else p) ∧
    (e.update pool x y).1.markedForDeletion =
      (e.markedForDeletion ||
        pool.any (Enemy.hits { e with x := e.positionX + x, y := e.positionY + y })) := by
  constructor
  · exact collideLoop_pool pool _
  · rw [Enemy.update, collideLoop_enemy pool _]

/-- C1 counterexample -- a single `Enemy.update` call with two active
projectiles both overlapping the enemy consumes both of them: the pool
starts with zero free slots and ends with two, so more than one projectile
was reset by one per-frame update. -/
theorem enemy_update_double_consume :
    (List.countP (fun p => p.free)
        [({ width := 4, height := 20, x := 10, y := 10, speed := 20,
            free := false } : Projectile),
         { width := 4, height := 20, x := 20, y := 10, speed := 20,
           free := false }]) = 0 ∧
    (List.countP (fun p => p.free)
        ((Enemy.update
            { width := 60, height := 60, x := 0, y := 0, positionX := 0,
              positionY := 0, markedForDeletion := false }
            [{ width := 4, height := 20, x := 10, y := 10, speed := 20,
               free := false },
             { width := 4, height := 20, x := 20, y := 10, speed := 20,
               free := false }] 0 0).2)) = 2 := by
  constructor
  · decide
  · norm_num [Enemy.update, collideLoop, Enemy.hits, checkCollision,
      Enemy.toRect, Projectile.toRect, Projectile.reset, List.countP,
      List.countP.go]

/-- The per-frame motion facts of `Wave.draw`, read off its definition:
the bounce test looks at the frame's STARTING origin.x, and the speeds it
selects are then added to the origin. -/
theorem wave_draw_motion (gameWidth enemySize : ℚ) (w : Wave)
    (pool : List Projectile) :
    (Wave.draw gameWidth enemySize w pool).1.speedX =
        (if w.x < 0 ∨ w.x > gameWidth - w.width then w.speedX * (-1) else w.speedX) ∧
      (Wave.draw gameWidth enemySize w pool).1.speedY =
        (if w.x < 0 ∨ w.x > gameWidth - w.width then enemySize else 0) ∧
      (Wave.draw gameWidth enemySize w pool).1.x =
        w.x + (Wave.draw gameWidth enemySize w pool).1.speedX ∧
      (Wave.draw gameWidth enemySize w pool).1.width = w.width :=
  ⟨rfl, rfl, rfl, rfl⟩

/-- C2 amended -- `Wave.draw` reverses the horizontal speed and uses one
enemy-cell of vertical speed exactly in the frames whose STARTING origin.x
is already strictly outside `[0, gameWidth - width]` (the test runs before
the speed is applied); consequently a wave whose origin.x sits exactly at
`gameWidth - width` moving right does not flip on the next frame — it
first overshoots by `speedX`, and the flip and drop happen on the frame
after that. -/
theorem wave_draw_bounce_rule (gameWidth enemySize : ℚ) (w : Wave)
    (pool : List Projectile) :
    ((Wave.draw gameWidth enemySize w pool).1.speedX =
        (if w.x < 0 ∨ w.x > gameWidth - w.width then w.speedX * (-1) else w.speedX) ∧
      (Wave.draw gameWidth enemySize w pool).1.speedY =
        (if w.x < 0 ∨ w.x > gameWidth - w.width then enemySize else 0) ∧
      (Wave.draw gameWidth enemySize w pool).1.x =
        w.x + (Wave.draw gameWidth enemySize w pool).1.speedX ∧
      (Wave.draw gameWidth enemySize w pool).1.width = w.width) ∧
    ∀ pool2 : List Projectile, w.x = gameWidth - w.width → 0 ≤ w.x →
      0 < w.speedX →
      (Wave.draw gameWidth enemySize w pool).1.speedX = w.speedX ∧
      (Wave.draw gameWidth enemySize w pool).1.speedY = 0 ∧
      (Wave.draw gameWidth enemySize w pool).1.x = w.x + w.speedX ∧
      (Wave.draw gameWidth enemySize
          (Wave.draw gameWidth enemySize w pool).1 pool2).1.speedX =
        w.speedX * (-1) ∧
      (Wave.draw gameWidth enemySize
          (Wave.draw gameWidth enemySize w pool).1 pool2).1.speedY = enemySize := by
  obtain ⟨hsx, hsy, hx, hw⟩ := wave_draw_motion gameWidth enemySize w pool
  refine ⟨⟨hsx, hsy, hx, hw⟩, ?_⟩
  intro pool2 hedge hnn hpos
  have hout : ¬(w.x < 0 ∨ w.x > gameWidth - w.width) := by
    rw [hedge] at hnn ⊢
    push_neg
    constructor <;> linarith
  have h1x : (Wave.draw gameWidth enemySize w pool).1.speedX = w.speedX := by
    rw [hsx, if_neg hout]
  have h1y : (Wave.draw gameWidth enemySize w pool).1.speedY = 0 := by
    rw [hsy, if_neg hout]
  have h1pos : (Wave.draw gameWidth enemySize w pool).1.x = w.x + w.speedX := by
    rw [hx, h1x]
  have hout2 : (Wave.draw gameWidth enemySize w pool).1.x < 0 ∨
      (Wave.draw gameWidth enemySize w pool).1.x >
        gameWidth - (Wave.draw gameWidth enemySize w pool).1.width := by
    right
    rw [h1pos, hw, ← hedge]
    linarith
  obtain ⟨h2sx, h2sy, _, _⟩ := wave_draw_motion gameWidth enemySize
    (Wave.draw gameWidth enemySize w pool).1 pool2
  rw [if_pos hout2] at h2sx h2sy
  exact ⟨h1x, h1y, h1pos, by rw [h2sx, h1x], h2sy⟩

/-- C2 amended witness: the 600-wide world, a 180-wide wave sitting exactly
at x = 420 moving right at 3 — no flip that frame, flip and 60-drop the
frame after. -/
theorem wave_draw_bounce_rule_witness :
    (edgeWave.x = 600 - edgeWave.width ∧ (0 : ℚ) ≤ edgeWave.x ∧
        (0 : ℚ) < edgeWave.speedX) ∧
      ((Wave.draw 600 60 edgeWave []).1.speedX = edgeWave.speedX ∧
        (Wave.draw 600 60 edgeWave []).1.speedY = 0 ∧
        (Wave.draw 600 60 edgeWave []).1.x = edgeWave.x + edgeWave.speedX ∧
        (Wave.draw 600 60 (Wave.draw 600 60 edgeWave []).1 []).1.speedX =
          edgeWave.speedX * (-1) ∧
        (Wave.draw 600 60 (Wave.draw 600 60 edgeWave []).1 []).1.speedY = 60) :=
  ⟨⟨by norm_num [edgeWave], by norm_num [edgeWave], by norm_num [edgeWave]⟩,
    (wave_draw_bounce_rule 600 60 edgeWave []).2 []
      (by norm_num [edgeWave]) (by norm_num [edgeWave]) (by norm_num [edgeWave])⟩

/-- C2 counterexample -- the claim predicts that the frame after origin.x
reaches exactly `worldWidth - waveWidth` (here 420 = 600 - 180) flips the
horizontal speed and drops by one cell; the code instead keeps speedX = 3,
keeps speedY = 0 and overshoots to x = 423 on that frame. -/
theorem wave_no_flip_at_exact_edge :
    (Wave.draw 600 60 edgeWave []).1.speedX = 3 ∧
      (Wave.draw 600 60 edgeWave []).1.speedY = 0 ∧
      (Wave.draw 600 60 edgeWave []).1.x = 423 := by
  norm_num [Wave.draw, edgeWave, enemiesLoop]

end RetroGame

namespace RetroGame

/-- The per-enemy loop of `Wave.draw` keeps one output (updated, drawn)
enemy per input enemy. -/
theorem enemiesLoop_length :
    ∀ (es : List Enemy) (pool : List Projectile) (x y : ℚ),
      (enemiesLoop es pool x y).1.length = es.length
  | [], _, _, _ => rfl
  | e :: rest, pool, x, y => by
    unfold enemiesLoop
    dsimp only
    rw [List.length_cons, enemiesLoop_length rest _ x y, List.length_cons]

/-- C5 -- every enemy of frame N, including any that gets marked for
deletion by this frame's update, is still among the enemies drawn in frame
N (one drawn enemy per pool member, in order); the wave's collection as
frame N+1 sees it is the drawn list filtered exactly once, after the whole
update-and-draw loop, so a drawn enemy marked for deletion is no longer a
member of the collection. -/
theorem marked_enemy_drawn_then_removed (gameWidth enemySize : ℚ) (w : Wave)
    (pool : List Projectile) :
    (Wave.draw gameWidth enemySize w pool).2.2.length = w.enemies.length ∧
      (Wave.draw gameWidth enemySize w pool).1.enemies =
        (Wave.draw gameWidth enemySize w pool).2.2.filter
          (fun e => !e.markedForDeletion) ∧
      ∀ e ∈ (Wave.draw gameWidth enemySize w pool).2.2,
        e.markedForDeletion = true →
          e ∉ (Wave.draw gameWidth enemySize w pool).1.enemies := by
  refine ⟨enemiesLoop_length w.enemies pool _ _, rfl, ?_⟩
  intro e _ hmark hcon
  have h2 := (List.mem_filter.mp hcon).2
  rw [hmark] at h2
  simp at h2

/-- C5 witness: in the fixture frame the enemy is hit, so the drawn list
still holds it (marked) while the post-frame collection does not. -/
theorem marked_enemy_drawn_then_removed_witness :
    (⟨60, 60, 3, 0, 0, 0, true⟩ : Enemy) ∈ (Wave.draw 600 60 hitWave hitPool).2.2 ∧
      (⟨60, 60, 3, 0, 0, 0, true⟩ : Enemy).markedForDeletion = true ∧
      (⟨60, 60, 3, 0, 0, 0, true⟩ : Enemy) ∉ (Wave.draw 600 60 hitWave hitPool).1.enemies :=
  ⟨by norm_num [Wave.draw, hitWave, hitPool, enemiesLoop, Enemy.update,
      collideLoop, Enemy.hits, checkCollision, Enemy.toRect,
      Projectile.toRect, Projectile.reset],
   rfl,
   (marked_enemy_drawn_then_removed 600 60 hitWave hitPool).2.2
     ⟨60, 60, 3, 0, 0, 0, true⟩
     (by norm_num [Wave.draw, hitWave, hitPool, enemiesLoop, Enemy.update,
        collideLoop, Enemy.hits, checkCollision, Enemy.toRect,
        Projectile.toRect, Projectile.reset])
     rfl⟩

end RetroGame
